import Mathlib

/-!
Verification of the HahOrNahBot conversation controller, user registry and joke
repository against its specification.

The development shallowly embeds `app/HahOrNahBot.py`.  Persistent state is
passed explicitly: the user table and the joke table are Lean lists, the
per-conversation `user_data` dictionary is a structure, and every handler is a
pure function from the incoming message plus the current state to the new state
together with the list of replies it sends.  Python exceptions become `Except`
or `Option` results.  The `shuffle` call in `display_random_joke` is modelled
by passing the shuffled order of the repository's jokes as an argument, so
theorems quantify over every possible shuffle outcome.

`app/models.py` and `app/exceptions.py` are not part of the sources; the
definitions taken from them (`User.vote_for_joke`, `User.get_jokes_submitted`,
`User.get_average_score`, and the shape of the `User`/`Joke` records) are
modelled from the specification and marked as such in their doc comments.
-/

namespace HahOrNah

/-- Modelled from the spec: the `User` record of `app/models.py` (not under
`src/`).  `id` is the external chat identity, `score` starts at 0, and
`jokesVotedFor` is the set of (joke id, polarity) pairs for votes this user has
cast (polarity `true` = positive/"hah").  The `jokes_submitted` relationship is
represented by the `author` field of `Joke` (a joke is in `u.jokes_submitted`
iff its `author` is `u.id`). -/
structure User where
  id : Nat
  username : String
  score : Int
  jokesVotedFor : List (Nat × Bool)
deriving DecidableEq

/-- Modelled from the spec: the `Joke` record of `app/models.py` (not under
`src/`).  `author` stores the author's user id. -/
structure Joke where
  id : Nat
  body : String
  vote_count : Int
  author : Nat
deriving DecidableEq

/-- `self.JOKE_LENGTH_MIN` -/
def JOKE_LENGTH_MIN : Nat := 10

/-- `self.JOKE_LENGTH_MAX` -/
def JOKE_LENGTH_MAX : Nat := 1000

/-- `self.USERNAME_LENGTH_MIN` -/
def USERNAME_LENGTH_MIN : Nat := 5

/-- `self.USERNAME_LENGTH_MAX` -/
def USERNAME_LENGTH_MAX : Nat := 20

/-- Membership in `self.USERNAME_ALLOWED_CHARACTERS = set(ascii_letters + digits + '-_')`. -/
def usernameAllowedChar (c : Char) : Bool :=
  c.isAlpha || c.isDigit || c == '-' || c == '_'

/-- `set(username) <= self.USERNAME_ALLOWED_CHARACTERS`: every character of the
username is an ASCII letter, a digit, a dash or an underscore. -/
def usernameAllowed (s : String) : Bool :=
  s.data.all usernameAllowedChar

/-- The exceptions `private_add_user` can raise: the three validation errors
from `app/exceptions.py` plus the `AssertionError` of `assert user is None`. -/
inductive AddUserError where
  | invalidCharacters
  | tooShort
  | tooLong
  | assertionFailed
deriving DecidableEq

/-- The exceptions `private_add_joke` can raise. -/
inductive JokeError where
  | tooShort
  | tooLong
deriving DecidableEq

/-- `self.session.query(User).filter(User.id == user_id).first()` -/
def findUser (users : List User) (user_id : Nat) : Option User :=
  users.find? (fun u => u.id == user_id)

/-- `private_add_user`: validates the username (charset, then minimum length,
then maximum length), asserts the identity is new, then persists and returns a
`User` with score 0. -/
def private_add_user (users : List User) (user_id : Nat) (username : String) :
    Except AddUserError (List User × User) :=
  if !usernameAllowed username then .error .invalidCharacters
  else if username.length < USERNAME_LENGTH_MIN then .error .tooShort
  else if USERNAME_LENGTH_MAX < username.length then .error .tooLong
  else if (findUser users user_id).isSome then .error .assertionFailed
  else
    let user : User := ⟨user_id, username, 0, []⟩
    .ok (users ++ [user], user)

/-- `self.session.query(Joke).order_by(Joke.id).all()` -/
def jokesById (jokes : List Joke) : List Joke :=
  List.insertionSort (fun a b => a.id ≤ b.id) jokes

/-- The id computation of `private_add_joke`: one plus the id of the last
entry of the id-ordered joke table (`all_jokes[-1]`), or 0 when the `IndexError`
branch fires because the table is empty. -/
def nextJokeId (jokes : List Joke) : Nat :=
  match (jokesById jokes).getLast? with
  | some last_joke => last_joke.id + 1
  | none => 0

/-- `private_add_joke`: validates the body length, computes the new id by
adding one to the last id of the id-ordered joke table (0 when the table is
empty), persists a joke with `vote_count` 0 and returns `None` (the Python
method ends in a bare `return`; its docstring says `Returns: None`).  The
second component of the `.ok` result is that returned value. -/
def private_add_joke (jokes : List Joke) (joke_body : String) (author : User) :
    Except JokeError (List Joke × Option Joke) :=
  if joke_body.length < JOKE_LENGTH_MIN then .error .tooShort
  else if JOKE_LENGTH_MAX < joke_body.length then .error .tooLong
  else
    let new_joke : Joke := ⟨nextJokeId jokes, joke_body, 0, author.id⟩
    .ok (jokes ++ [new_joke], none)

/-- The per-conversation `user_data` dictionary: `current_user` is the cache
read by `private_get_user`, `last_joke` the joke awaiting a vote, and
`user_reg` the separate `user_data['user']` key written on registration. -/
structure UserData where
  current_user : Option User
  last_joke : Option Joke
  user_reg : Option User
deriving DecidableEq

/-- `private_get_user`: return the cached user if present, otherwise look the
chat id up in the user table (caching the result); `none` models the
`UserDoesNotExist` exception. -/
def private_get_user (users : List User) (chat_id : Nat) (user_data : UserData) :
    Option (User × UserData) :=
  match user_data.current_user with
  | some user => some (user, user_data)
  | none =>
    match findUser users chat_id with
    | none => none
    | some user => some (user, { user_data with current_user := some user })

/-- One outgoing message.  `response key` stands for
`reply_text(private_get_random_response(key))`; the keyboard constructors stand
for the corresponding `display_*_keyboard` helpers; `removeKeyboard key` stands
for `remove_keyboard(..., private_get_random_response(key))`. -/
inductive Reply where
  | response (key : String)
  | jokeBody (j : Joke)
  | newUserKeyboard
  | menuKeyboard
  | voteKeyboard
  | removeKeyboard (key : String)
  | profileInfo (username : String) (rank : Nat) (score : Int)
      (jokesCount : Nat) (averageScore : Rat)
  | top10List (entries : List (Nat × String × Int))
deriving DecidableEq

/-- What a conversation-flow handler may return to the dispatcher:
`some .endConv` models `return ConversationHandler.END`; `none` models a bare
`return` (Python `None`). -/
inductive ConvSignal where
  | endConv
deriving DecidableEq

/-- The conversation states of the two flows. -/
inductive ConvState where
  | idle
  | awaitingUsername
  | awaitingJokeBody
deriving DecidableEq

/-- The external `ConversationHandler` dispatch rule for a handler's return
value: `END` ends the conversation (back to `IDLE`); `None` leaves the current
state unchanged. -/
def updateConvState (s : ConvState) : Option ConvSignal → ConvState
  | some .endConv => .idle
  | none => s

/-- The `cancel` handler: replies, shows the menu and returns
`ConversationHandler.END`. -/
def cancel : Option ConvSignal × List Reply :=
  (some .endConv, [.response "cancel", .menuKeyboard])

/-- `new_user_received_username`: try `private_add_user`; on success store the
user under `user_data['user']`, reply and show the menu; on each validation
error reply with the specific message.  Every path goes through
`finally: return`, so the handler returns `None` (signal `none`) in all cases —
including an `AssertionError` from `private_add_user`: a `return` in a
`finally` clause discards the in-flight exception, so that path sends no reply
at all and changes nothing. -/
def new_user_received_username (users : List User) (user_data : UserData)
    (chat_id : Nat) (text : String) :
    List User × UserData × Option ConvSignal × List Reply :=
  match private_add_user users chat_id text with
  | .ok (users', user) =>
      (users', { user_data with user_reg := some user }, none,
       [.response "user_register_success", .menuKeyboard])
  | .error .invalidCharacters =>
      (users, user_data, none, [.response "username_invalid_characters"])
  | .error .tooShort =>
      (users, user_data, none, [.response "username_too_short"])
  | .error .tooLong =>
      (users, user_data, none, [.response "username_too_long"])
  | .error .assertionFailed => (users, user_data, none, [])

/-- `new_joke_received`: check registration (showing the new-user keyboard on
failure), then try `private_add_joke`, replying per outcome; the handler ends
in `finally: return`, so the dispatcher signal is always `none`. -/
def new_joke_received (users : List User) (jokes : List Joke)
    (user_data : UserData) (chat_id : Nat) (text : String) :
    List Joke × UserData × Option ConvSignal × List Reply :=
  match private_get_user users chat_id user_data with
  | none => (jokes, user_data, none, [.newUserKeyboard])
  | some (user, ud) =>
    match private_add_joke jokes text user with
    | .ok (jokes', _) =>
        (jokes', ud, none, [.response "joke_submitted", .menuKeyboard])
    | .error .tooShort => (jokes, ud, none, [.response "joke_too_short"])
    | .error .tooLong => (jokes, ud, none, [.response "joke_too_long"])

/-- `random_joke in user.jokes_voted_for` — modelled from the spec's data
model: membership of the joke in the voter's voted-for set. -/
def votedAlready (user : User) (joke : Joke) : Bool :=
  user.jokesVotedFor.any (fun p => p.1 == joke.id)

/-- `random_joke in user.jokes_submitted` — the ORM relationship holds exactly
the jokes whose `author` is this user. -/
def userIsAuthor (user : User) (joke : Joke) : Bool :=
  joke.author == user.id

/-- The filter `not voted_already and not user_is_author` shared by
`display_random_joke` and `display_best_joke`. -/
def unseenBy (user : User) (joke : Joke) : Bool :=
  !votedAlready user joke && !userIsAuthor user joke

/-- `display_random_joke`: `shuffled` is the joke table in the order produced
by `shuffle(all_jokes)`.  An empty table raises `ValueError` inside
`randint(0, -1)`, caught and answered with `no_new_jokes`; otherwise the first
unseen joke of the shuffled order is stored in `user_data['last_joke']` and
displayed with the vote keyboard; if the loop finds none, `no_new_jokes`. -/
def display_random_joke (shuffled : List Joke) (users : List User)
    (user_data : UserData) (chat_id : Nat) : UserData × List Reply :=
  match private_get_user users chat_id user_data with
  | none => (user_data, [.newUserKeyboard])
  | some (user, ud) =>
    if shuffled.isEmpty then (ud, [.response "no_new_jokes"])
    else
      match shuffled.find? (fun j => unseenBy user j) with
      | some random_joke =>
          ({ ud with last_joke := some random_joke },
           [.jokeBody random_joke, .voteKeyboard])
      | none => (ud, [.response "no_new_jokes"])

/-- `self.session.query(Joke).order_by(Joke.vote_count).all()` -/
def jokesByVoteCount (jokes : List Joke) : List Joke :=
  List.insertionSort (fun a b => a.vote_count ≤ b.vote_count) jokes

/-- `display_best_joke`: walk the jokes ordered ascending by `vote_count` and
reply with the first unseen one; when the loop finds none the method falls off
its end and sends nothing. -/
def display_best_joke (jokes : List Joke) (users : List User)
    (user_data : UserData) (chat_id : Nat) : UserData × List Reply :=
  match private_get_user users chat_id user_data with
  | none => (user_data, [.newUserKeyboard])
  | some (user, ud) =>
    match (jokesByVoteCount jokes).find? (fun j => unseenBy user j) with
    | some joke => (ud, [.jokeBody joke])
    | none => (ud, [])

/-- Modelled from the spec: `User.vote_for_joke` of `app/models.py` is not
under `src/`.  Per the spec, the vote raises `InvalidVote` (the `.error` case)
on an attempted duplicate or self vote; otherwise it increments/decrements the
joke's `vote_count` according to the polarity and adds the joke to the voter's
voted-for set. -/
def User.vote_for_joke (user : User) (joke : Joke) (positive : Bool) :
    Except Unit (User × Joke) :=
  if userIsAuthor user joke || votedAlready user joke then .error ()
  else
    .ok ({ user with jokesVotedFor := user.jokesVotedFor ++ [(joke.id, positive)] },
         { joke with vote_count := joke.vote_count + (if positive then 1 else -1) })

/-- The two texts matched by the vote handler's pattern `^(/hah|/nah)$`. -/
inductive VoteCmd where
  | hah
  | nah
deriving DecidableEq

/-- `'hah' in message.text` for a message matching `^(/hah|/nah)$`. -/
def votePolarity : VoteCmd → Bool
  | .hah => true
  | .nah => false

/-- `self.session.add(user); self.session.commit()`: the ORM persists the
in-place mutation of the user row. -/
def commitUser (users : List User) (u : User) : List User :=
  users.map (fun v => if v.id == u.id then u else v)

/-- Persisting the in-place mutation of the joke row. -/
def commitJoke (jokes : List Joke) (j : Joke) : List Joke :=
  jokes.map (fun k => if k.id == j.id then j else k)

/-- `vote_for_joke` (the bot handler): check registration, resolve
`user_data['last_joke']` (replying `joke_no_current` when absent), apply the
vote — swallowing `InvalidVote`, which is only logged — and in the `finally`
block acknowledge with `after_vote` and `del user_data['last_joke']`.  On a
successful vote the mutated user object is the cached one, so the cache holds
the updated user. -/
def vote_for_joke (cmd : VoteCmd) (users : List User) (jokes : List Joke)
    (user_data : UserData) (chat_id : Nat) :
    List User × List Joke × UserData × List Reply :=
  match private_get_user users chat_id user_data with
  | none => (users, jokes, user_data, [.newUserKeyboard])
  | some (user, ud) =>
    match ud.last_joke with
    | none => (users, jokes, ud, [.response "joke_no_current"])
    | some joke =>
      let positive := votePolarity cmd
      match user.vote_for_joke joke positive with
      | .ok (user', joke') =>
          (commitUser users user', commitJoke jokes joke',
           { ud with current_user := some user', last_joke := none },
           [.removeKeyboard "after_vote"])
      | .error _ =>
          (users, jokes, { ud with last_joke := none },
           [.removeKeyboard "after_vote"])

/-- `self.session.query(User).order_by(User.score).all()` -/
def usersByScore (users : List User) : List User :=
  List.insertionSort (fun a b => a.score ≤ b.score) users

/-- Modelled from the spec: `User.get_jokes_submitted` of `app/models.py` is
not under `src/`; the relationship holds the jokes authored by this user. -/
def User.get_jokes_submitted (user : User) (jokes : List Joke) : List Joke :=
  jokes.filter (fun j => j.author == user.id)

/-- Modelled from the spec: `User.get_average_score` of `app/models.py` is not
under `src/`.  Per the spec, the average is the sum of `vote_count` across the
user's authored jokes divided by their number, 0 when the user has none. -/
def User.get_average_score (user : User) (jokes : List Joke) : Rat :=
  let submitted := user.get_jokes_submitted jokes
  if submitted.length == 0 then 0
  else ((submitted.map (fun j => (j.vote_count : Rat))).sum) / (submitted.length : Rat)

/-- `profile`: rank is `all_users.index(user) + 1` in the score-ascending user
table; also reports score, number of submitted jokes and the average score. -/
def profile (users : List User) (jokes : List Joke) (user_data : UserData)
    (chat_id : Nat) : UserData × List Reply :=
  match private_get_user users chat_id user_data with
  | none => (user_data, [.newUserKeyboard])
  | some (user, ud) =>
    let all_users := usersByScore users
    let user_rank := all_users.indexOf user + 1
    let jokes_submitted_count := (user.get_jokes_submitted jokes).length
    let average_score := user.get_average_score jokes
    (ud, [.profileInfo user.username user_rank user.score
            jokes_submitted_count average_score])

/-- `top10`: the first 10 entries of the score-ascending user table, enumerated
with 1-based ranks. -/
def top10 (users : List User) (user_data : UserData) (chat_id : Nat) :
    UserData × List Reply :=
  match private_get_user users chat_id user_data with
  | none => (user_data, [.newUserKeyboard])
  | some (_, ud) =>
    let top_10_users := (usersByScore users).take 10
    (ud, [.top10List (top_10_users.enum.map
            (fun p => (p.1 + 1, p.2.username, p.2.score)))])

/-- `add_jokes_in_sequence bodies author jokes`: submit the bodies one after
another through `private_add_joke`, threading the joke table. -/
def add_jokes_in_sequence : List String → User → List Joke →
    Except JokeError (List Joke)
  | [], _, jokes => .ok jokes
  | b :: rest, author, jokes =>
    match private_add_joke jokes b author with
    | .ok (jokes', _) => add_jokes_in_sequence rest author jokes'
    | .error e => .error e

/-! ### Order instances and shared lemmas -/

instance : IsTotal Joke (fun a b => a.id ≤ b.id) :=
  ⟨fun a b => Nat.le_total a.id b.id⟩

instance : IsTrans Joke (fun a b => a.id ≤ b.id) :=
  ⟨fun _ _ _ h1 h2 => Nat.le_trans h1 h2⟩

instance : IsTotal Joke (fun a b => a.vote_count ≤ b.vote_count) :=
  ⟨fun a b => Int.le_total a.vote_count b.vote_count⟩

instance : IsTrans Joke (fun a b => a.vote_count ≤ b.vote_count) :=
  ⟨fun _ _ _ h1 h2 => Int.le_trans h1 h2⟩

instance : IsTotal User (fun a b => a.score ≤ b.score) :=
  ⟨fun a b => Int.le_total a.score b.score⟩

instance : IsTrans User (fun a b => a.score ≤ b.score) :=
  ⟨fun _ _ _ h1 h2 => Int.le_trans h1 h2⟩

theorem get_user_some {users : List User} {chat_id : Nat} {ud ud1 : UserData}
    {u : User} (h : private_get_user users chat_id ud = some (u, ud1)) :
    ud1.last_joke = ud.last_joke ∧ ud1.user_reg = ud.user_reg ∧
    ud1.current_user = some u := by
  unfold private_get_user at h
  cases hc : ud.current_user with
  | some v =>
    rw [hc] at h
    simp only [Option.some.injEq, Prod.mk.injEq] at h
    obtain ⟨h1, h2⟩ := h
    subst h1; subst h2
    exact ⟨rfl, rfl, hc⟩
  | none =>
    rw [hc] at h
    cases hf : findUser users chat_id with
    | none => rw [hf] at h; simp at h
    | some v =>
      rw [hf] at h
      simp only [Option.some.injEq, Prod.mk.injEq] at h
      obtain ⟨h1, h2⟩ := h
      subst h1; subst h2
      exact ⟨rfl, rfl, rfl⟩

theorem get_user_cached {users : List User} {chat_id : Nat} {ud : UserData}
    {u : User} (h : ud.current_user = some u) :
    private_get_user users chat_id ud = some (u, ud) := by
  unfold private_get_user
  rw [h]

theorem mem_of_getLast?_eq_some : ∀ {l : List Joke} {m : Joke},
    l.getLast? = some m → m ∈ l
  | [], _, h => by simp at h
  | [a], m, h => by
    simp only [List.getLast?_singleton, Option.some.injEq] at h
    simp [h]
  | a :: b :: t, m, h => by
    rw [List.getLast?_cons_cons] at h
    exact List.mem_cons_of_mem a (mem_of_getLast?_eq_some h)

theorem getLast?_max_id : ∀ {l : List Joke},
    List.Sorted (fun a b => a.id ≤ b.id) l →
    ∀ {m : Joke}, l.getLast? = some m → ∀ x ∈ l, x.id ≤ m.id := by
  intro l
  induction l with
  | nil => intro _ m hm; simp at hm
  | cons a t ih =>
    intro hs m hm x hx
    cases t with
    | nil =>
      simp only [List.getLast?_singleton, Option.some.injEq] at hm
      simp only [List.mem_singleton] at hx
      rw [hx, hm]
    | cons b t' =>
      rw [List.getLast?_cons_cons] at hm
      rcases List.mem_cons.mp hx with rfl | hxt
      · have hmmem : m ∈ b :: t' := mem_of_getLast?_eq_some hm
        exact List.rel_of_sorted_cons hs m hmmem
      · exact ih hs.of_cons hm x hxt

theorem sorted_jokesById (jokes : List Joke) :
    List.Sorted (fun a b => a.id ≤ b.id) (jokesById jokes) :=
  List.sorted_insertionSort _ jokes

theorem jokesById_perm (jokes : List Joke) : (jokesById jokes).Perm jokes :=
  List.perm_insertionSort _ jokes

theorem nextJokeId_gt (jokes : List Joke) :
    ∀ j ∈ jokes, j.id < nextJokeId jokes := by
  intro j hj
  cases hl : (jokesById jokes).getLast? with
  | none =>
    rw [List.getLast?_eq_none_iff] at hl
    have hmem : j ∈ jokesById jokes := (jokesById_perm jokes).mem_iff.mpr hj
    rw [hl] at hmem
    simp at hmem
  | some m =>
    have hmem : j ∈ jokesById jokes := (jokesById_perm jokes).mem_iff.mpr hj
    have hle := getLast?_max_id (sorted_jokesById jokes) hl j hmem
    have hval : nextJokeId jokes = m.id + 1 := by
      unfold nextJokeId
      rw [hl]
    omega

theorem nextJokeId_eq_max_succ (jokes : List Joke) (h : jokes ≠ []) :
    ∃ j ∈ jokes, nextJokeId jokes = j.id + 1 := by
  cases hl : (jokesById jokes).getLast? with
  | none =>
    rw [List.getLast?_eq_none_iff] at hl
    have hnil : jokes = [] := by
      have hp := (jokesById_perm jokes).symm
      rw [hl] at hp
      exact hp.eq_nil
    exact absurd hnil h
  | some m =>
    refine ⟨m, (jokesById_perm jokes).mem_iff.mp (mem_of_getLast?_eq_some hl), ?_⟩
    unfold nextJokeId
    rw [hl]

theorem sorted_usersByScore (users : List User) :
    List.Sorted (fun a b => a.score ≤ b.score) (usersByScore users) :=
  List.sorted_insertionSort _ users

theorem usersByScore_perm (users : List User) : (usersByScore users).Perm users :=
  List.perm_insertionSort _ users

theorem sorted_jokesByVoteCount (jokes : List Joke) :
    List.Sorted (fun a b => a.vote_count ≤ b.vote_count) (jokesByVoteCount jokes) :=
  List.sorted_insertionSort _ jokes

theorem jokesByVoteCount_perm (jokes : List Joke) :
    (jokesByVoteCount jokes).Perm jokes :=
  List.perm_insertionSort _ jokes

theorem find?_min_vote_count {p : Joke → Bool} : ∀ {l : List Joke},
    List.Sorted (fun a b => a.vote_count ≤ b.vote_count) l →
    ∀ {j : Joke}, l.find? p = some j →
    ∀ x ∈ l, p x = true → j.vote_count ≤ x.vote_count := by
  intro l
  induction l with
  | nil => intro _ j hf; simp at hf
  | cons a t ih =>
    intro hs j hf x hx hp
    by_cases hpa : p a
    · rw [List.find?_cons_of_pos _ hpa] at hf
      injection hf with hf
      subst hf
      rcases List.mem_cons.mp hx with rfl | hxt
      · exact le_refl _
      · exact List.rel_of_sorted_cons hs x hxt
    · rw [List.find?_cons_of_neg _ hpa] at hf
      rcases List.mem_cons.mp hx with rfl | hxt
      · exact absurd hp hpa
      · exact ih hs.of_cons hf x hxt hp

theorem take10_score_le (users : List User) (a b : User)
    (ha : a ∈ (usersByScore users).take 10) (hb : b ∈ users)
    (hbn : b ∉ (usersByScore users).take 10) : a.score ≤ b.score := by
  have hbs : b ∈ usersByScore users := (usersByScore_perm users).mem_iff.mpr hb
  have hsplit : b ∈ (usersByScore users).take 10 ++ (usersByScore users).drop 10 := by
    rw [List.take_append_drop]
    exact hbs
  rcases List.mem_append.mp hsplit with h | h
  · exact absurd h hbn
  · exact (sorted_usersByScore users).rel_of_mem_take_of_mem_drop ha h

theorem indexOf_split (l : List User) (u : User) (h : u ∈ l) :
    ∃ pre post, l = pre ++ u :: post ∧ pre.length = l.indexOf u := by
  have hlt : l.indexOf u < l.length := List.indexOf_lt_length.mpr h
  have h1 := List.take_append_drop (l.indexOf u) l
  have h2 := List.drop_eq_getElem_cons hlt
  have h3 := List.getElem_indexOf hlt
  rw [h3] at h2
  rw [h2] at h1
  refine ⟨l.take (l.indexOf u), l.drop (l.indexOf u + 1), h1.symm, ?_⟩
  rw [List.length_take]
  omega

theorem add_user_invalid_chars (users : List User) (uid : Nat) (s : String)
    (hc : usernameAllowed s = false) :
    private_add_user users uid s = .error .invalidCharacters := by
  simp [private_add_user, hc]

theorem add_user_too_short (users : List User) (uid : Nat) (s : String)
    (hc : usernameAllowed s = true) (h5 : s.length < 5) :
    private_add_user users uid s = .error .tooShort := by
  simp [private_add_user, hc, USERNAME_LENGTH_MIN, h5]

theorem add_user_too_long (users : List User) (uid : Nat) (s : String)
    (hc : usernameAllowed s = true) (_h5 : 5 ≤ s.length) (h20 : 20 < s.length) :
    private_add_user users uid s = .error .tooLong := by
  have h5n : ¬ s.length < 5 := by omega
  simp [private_add_user, hc, USERNAME_LENGTH_MIN, USERNAME_LENGTH_MAX, h5n, h20]

theorem add_user_ok (users : List User) (uid : Nat) (s : String)
    (hnew : findUser users uid = none) (hc : usernameAllowed s = true)
    (h5 : 5 ≤ s.length) (h20 : s.length ≤ 20) :
    private_add_user users uid s =
      .ok (users ++ [⟨uid, s, 0, []⟩], ⟨uid, s, 0, []⟩) := by
  have h5n : ¬ s.length < 5 := by omega
  have h20n : ¬ 20 < s.length := by omega
  simp [private_add_user, hc, USERNAME_LENGTH_MIN, USERNAME_LENGTH_MAX, h5n,
        h20n, hnew]

theorem add_joke_too_short (jokes : List Joke) (body : String) (author : User)
    (h : body.length < 10) :
    private_add_joke jokes body author = .error .tooShort := by
  simp [private_add_joke, JOKE_LENGTH_MIN, h]

theorem add_joke_too_long (jokes : List Joke) (body : String) (author : User)
    (h : 1000 < body.length) :
    private_add_joke jokes body author = .error .tooLong := by
  have hn : ¬ body.length < 10 := by omega
  simp [private_add_joke, JOKE_LENGTH_MIN, JOKE_LENGTH_MAX, hn, h]

theorem add_joke_ok (jokes : List Joke) (body : String) (author : User)
    (h1 : 10 ≤ body.length) (h2 : body.length ≤ 1000) :
    private_add_joke jokes body author =
      .ok (jokes ++ [⟨nextJokeId jokes, body, 0, author.id⟩], none) := by
  have hn1 : ¬ body.length < 10 := by omega
  have hn2 : ¬ 1000 < body.length := by omega
  simp [private_add_joke, JOKE_LENGTH_MIN, JOKE_LENGTH_MAX, hn1, hn2]

/-! ### Claim C2: username validation in `private_add_user` -/

/-- The registration contract of `private_add_user` for a fresh identity:
success exactly for usernames of length 5–20 over the allowed charset; the
checks fire in order (charset, then minimum length, then maximum length); on
success the new user has score 0 and is appended to the table and returned. -/
def AddUserSpec (users : List User) (uid : Nat) (s : String) : Prop :=
  ((∃ r, private_add_user users uid s = .ok r) ↔
     (usernameAllowed s = true ∧ 5 ≤ s.length ∧ s.length ≤ 20)) ∧
  (usernameAllowed s = true ↔
     ∀ c ∈ s.data, (c.isAlpha = true ∨ c.isDigit = true ∨ c = '-' ∨ c = '_')) ∧
  (usernameAllowed s = false →
     private_add_user users uid s = .error .invalidCharacters) ∧
  (usernameAllowed s = true → s.length < 5 →
     private_add_user users uid s = .error .tooShort) ∧
  (usernameAllowed s = true → 5 ≤ s.length → 20 < s.length →
     private_add_user users uid s = .error .tooLong) ∧
  (usernameAllowed s = true → 5 ≤ s.length → s.length ≤ 20 →
     private_add_user users uid s =
       .ok (users ++ [⟨uid, s, 0, []⟩], ⟨uid, s, 0, []⟩))

/-- Claim C2: for every string submitted to registration by a not-yet-registered
identity, `private_add_user` succeeds iff the username has 5–20 characters all
of which are letters, digits, dash or underscore; on violation exactly one of
`InvalidCharacters`, `TooShort`, `TooLong` is raised, checked in that order;
on success a new `User` with score 0 is persisted and returned. -/
theorem private_add_user_contract (users : List User) (uid : Nat) (s : String)
    (hnew : findUser users uid = none) : AddUserSpec users uid s := by
  have hchar : usernameAllowed s = true ↔
      ∀ c ∈ s.data, (c.isAlpha = true ∨ c.isDigit = true ∨ c = '-' ∨ c = '_') := by
    simp [usernameAllowed, usernameAllowedChar, List.all_eq_true, or_assoc]
  refine ⟨⟨?_, ?_⟩, hchar, add_user_invalid_chars users uid s,
    add_user_too_short users uid s, add_user_too_long users uid s,
    add_user_ok users uid s hnew⟩
  · rintro ⟨r, hr⟩
    by_cases hc : usernameAllowed s
    · by_cases h5 : s.length < 5
      · rw [add_user_too_short users uid s hc h5] at hr; cases hr
      · by_cases h20 : 20 < s.length
        · rw [add_user_too_long users uid s hc (by omega) h20] at hr; cases hr
        · exact ⟨hc, by omega, by omega⟩
    · rw [add_user_invalid_chars users uid s (Bool.eq_false_iff.mpr hc)] at hr
      cases hr
  · rintro ⟨hc, h5, h20⟩
    exact ⟨_, add_user_ok users uid s hnew hc h5 h20⟩

/-- Witness for C2: registering the valid username "alice" on a fresh identity. -/
theorem private_add_user_contract_witness :
    findUser [] 1 = none ∧ AddUserSpec [] 1 "alice" :=
  ⟨rfl, private_add_user_contract [] 1 "alice" rfl⟩

/-! ### Claim C3: joke submission in `private_add_joke` -/

theorem ids_range_step (js : List Joke) (n : Nat) (b : String) (author : User)
    (hids : js.map (fun j => j.id) = List.range n)
    (h1 : 10 ≤ b.length) (h2 : b.length ≤ 1000) :
    private_add_joke js b author = .ok (js ++ [⟨n, b, 0, author.id⟩], none) := by
  have hsorted : List.Sorted (fun a b : Joke => a.id ≤ b.id) js := by
    have hpl : List.Pairwise (fun a b : Nat => a < b) (js.map (fun j => j.id)) := by
      rw [hids]
      exact List.sorted_lt_range n
    rw [List.pairwise_map] at hpl
    exact hpl.imp (fun h => Nat.le_of_lt h)
  have hby : jokesById js = js := hsorted.insertionSort_eq
  have hnext : nextJokeId js = n := by
    unfold nextJokeId
    rw [hby]
    cases n with
    | zero =>
      have hnil : js = [] := by
        cases js with
        | nil => rfl
        | cons a t => simp at hids
      rw [hnil]
      rfl
    | succ m =>
      have hlast : (js.map (fun j => j.id)).getLast? = some m := by
        rw [hids, List.range_succ]
        exact List.getLast?_concat _
      rw [List.getLast?_map] at hlast
      cases hjl : js.getLast? with
      | none => rw [hjl] at hlast; simp at hlast
      | some j =>
        rw [hjl] at hlast
        simp only [Option.map_some', Option.some.injEq] at hlast
        show j.id + 1 = m + 1
        rw [hlast]
  have hn1 : ¬ (b.length < JOKE_LENGTH_MIN) := by unfold JOKE_LENGTH_MIN; omega
  have hn2 : ¬ (JOKE_LENGTH_MAX < b.length) := by unfold JOKE_LENGTH_MAX; omega
  unfold private_add_joke
  rw [if_neg hn1, if_neg hn2, hnext]

theorem add_jokes_ids (author : User) : ∀ (bodies : List String) (js : List Joke)
    (n : Nat), js.map (fun j => j.id) = List.range n →
    (∀ b ∈ bodies, 10 ≤ b.length ∧ b.length ≤ 1000) →
    ∃ js', add_jokes_in_sequence bodies author js = .ok js' ∧
      js'.map (fun j => j.id) = List.range (n + bodies.length) := by
  intro bodies
  induction bodies with
  | nil =>
    intro js n h _
    exact ⟨js, rfl, by simpa using h⟩
  | cons b rest ih =>
    intro js n h hv
    have hb := hv b (List.mem_cons_self b rest)
    have hstep := ids_range_step js n b author h hb.1 hb.2
    have hids' : (js ++ [(⟨n, b, 0, author.id⟩ : Joke)]).map (fun j => j.id) =
        List.range (n + 1) := by
      rw [List.map_append, h, List.range_succ]
      rfl
    obtain ⟨js', hrun, hmap⟩ := ih (js ++ [⟨n, b, 0, author.id⟩]) (n + 1) hids'
      (fun x hx => hv x (List.mem_cons_of_mem _ hx))
    refine ⟨js', ?_, ?_⟩
    · simp only [add_jokes_in_sequence, hstep]
      exact hrun
    · rw [hmap]
      simp only [List.length_cons]
      congr 1
      omega

/-- The amended C3 contract of `private_add_joke`: success exactly for bodies
of length 10–1000, new joke persisted with `vote_count` 0 and id equal to the
maximum existing id plus one (0 on an empty table), ids 0,1,2,… when filling an
empty table — and the method returns `None`, not the new joke. -/
def AddJokeSpec (jokes : List Joke) (body : String) (author : User) : Prop :=
  ((∃ r, private_add_joke jokes body author = .ok r) ↔
     (10 ≤ body.length ∧ body.length ≤ 1000)) ∧
  (body.length < 10 → private_add_joke jokes body author = .error .tooShort) ∧
  (1000 < body.length → private_add_joke jokes body author = .error .tooLong) ∧
  (10 ≤ body.length → body.length ≤ 1000 →
     private_add_joke jokes body author =
       .ok (jokes ++ [⟨nextJokeId jokes, body, 0, author.id⟩], none)) ∧
  (jokes = [] → nextJokeId jokes = 0) ∧
  (∀ j ∈ jokes, j.id < nextJokeId jokes) ∧
  (jokes ≠ [] → ∃ j ∈ jokes, nextJokeId jokes = j.id + 1)

/-- Claim C3 (amended): `private_add_joke` succeeds iff 10 ≤ len(body) ≤ 1000
(`TooShort` below, `TooLong` above); on success it persists a new `Joke` with
`vote_count` 0 and id = max existing id + 1 (0 for an empty table) — so filling
an empty table yields ids 0,1,2,… — and returns `None` (it does not return
the new joke: the source ends in a bare `return`). -/
theorem private_add_joke_contract (jokes : List Joke) (body : String)
    (author : User) (bodies : List String)
    (hbodies : ∀ b ∈ bodies, 10 ≤ b.length ∧ b.length ≤ 1000) :
    AddJokeSpec jokes body author ∧
    ∃ js, add_jokes_in_sequence bodies author [] = .ok js ∧
      js.map (fun j => j.id) = List.range bodies.length := by
  refine ⟨⟨⟨?_, ?_⟩, add_joke_too_short jokes body author,
      add_joke_too_long jokes body author, add_joke_ok jokes body author, ?_,
      nextJokeId_gt jokes, nextJokeId_eq_max_succ jokes⟩, ?_⟩
  · rintro ⟨r, hr⟩
    by_cases h1 : body.length < 10
    · rw [add_joke_too_short jokes body author h1] at hr; cases hr
    · by_cases h2 : 1000 < body.length
      · rw [add_joke_too_long jokes body author h2] at hr; cases hr
      · exact ⟨by omega, by omega⟩
  · rintro ⟨h1, h2⟩
    exact ⟨_, add_joke_ok jokes body author h1 h2⟩
  · intro h
    rw [h]
    rfl
  · obtain ⟨js, hrun, hmap⟩ := add_jokes_ids author bodies [] 0 rfl hbodies
    refine ⟨js, hrun, ?_⟩
    rw [hmap]
    congr 1
    omega

/-- Counterexample to C3 as stated: a successful `private_add_joke` returns
`None` (the second component of the result), not the new `Joke` — matching the
source's bare `return` and its docstring `Returns: None`. -/
theorem private_add_joke_counterexample :
    private_add_joke [] "aaaaaaaaaa" ⟨1, "alice", 0, []⟩ =
      .ok ([⟨0, "aaaaaaaaaa", 0, 1⟩], none) ∧
    (none : Option Joke) ≠ some ⟨0, "aaaaaaaaaa", 0, 1⟩ :=
  ⟨rfl, by simp⟩

/-- Witness for C3 at a concrete valid body and a concrete run of three
submissions into an empty table. -/
theorem private_add_joke_contract_witness :
    (∀ b ∈ ["aaaaaaaaaa", "bbbbbbbbbbb", "cccccccccccc"],
       10 ≤ b.length ∧ b.length ≤ 1000) ∧
    (AddJokeSpec [] "dddddddddd" ⟨1, "alice", 0, []⟩ ∧
     ∃ js, add_jokes_in_sequence ["aaaaaaaaaa", "bbbbbbbbbbb", "cccccccccccc"]
         ⟨1, "alice", 0, []⟩ [] = .ok js ∧
       js.map (fun j => j.id) =
         List.range ["aaaaaaaaaa", "bbbbbbbbbbb", "cccccccccccc"].length) :=
  ⟨by decide, private_add_joke_contract [] "dddddddddd" ⟨1, "alice", 0, []⟩
    ["aaaaaaaaaa", "bbbbbbbbbbb", "cccccccccccc"] (by decide)⟩

/-! ### Concrete sample data for witnesses -/

/-- A registered sample user. -/
def aliceW : User := ⟨1, "alice", 0, []⟩

/-- A second registered sample user. -/
def bobW : User := ⟨2, "bob_the", 3, []⟩

/-- A sample joke authored by `bobW`. -/
def jokeW : Joke := ⟨0, "aaaaaaaaaa", 0, 2⟩

/-- Session data with `aliceW` cached and no pending joke. -/
def udAlice : UserData := ⟨some aliceW, none, none⟩

/-! ### Handler reduction lemmas -/

theorem display_random_joke_reduce (shuffled : List Joke) (users : List User)
    (ud ud1 : UserData) (chat_id : Nat) (u : User)
    (hreg : private_get_user users chat_id ud = some (u, ud1)) :
    display_random_joke shuffled users ud chat_id =
      if shuffled.isEmpty then (ud1, [.response "no_new_jokes"])
      else
        match shuffled.find? (fun j => unseenBy u j) with
        | some random_joke =>
            ({ ud1 with last_joke := some random_joke },
             [.jokeBody random_joke, .voteKeyboard])
        | none => (ud1, [.response "no_new_jokes"]) := by
  unfold display_random_joke
  rw [hreg]

theorem display_best_joke_reduce (jokes : List Joke) (users : List User)
    (ud ud1 : UserData) (chat_id : Nat) (u : User)
    (hreg : private_get_user users chat_id ud = some (u, ud1)) :
    display_best_joke jokes users ud chat_id =
      match (jokesByVoteCount jokes).find? (fun j => unseenBy u j) with
      | some joke => (ud1, [.jokeBody joke])
      | none => (ud1, []) := by
  unfold display_best_joke
  rw [hreg]

theorem new_joke_received_reduce (users : List User) (jokes : List Joke)
    (ud ud1 : UserData) (chat_id : Nat) (u : User) (text : String)
    (hreg : private_get_user users chat_id ud = some (u, ud1)) :
    new_joke_received users jokes ud chat_id text =
      match private_add_joke jokes text u with
      | .ok (jokes', _) =>
          (jokes', ud1, none, [.response "joke_submitted", .menuKeyboard])
      | .error .tooShort => (jokes, ud1, none, [.response "joke_too_short"])
      | .error .tooLong => (jokes, ud1, none, [.response "joke_too_long"]) := by
  unfold new_joke_received
  rw [hreg]

theorem vote_for_joke_reduce (cmd : VoteCmd) (users : List User)
    (jokes : List Joke) (ud ud1 : UserData) (chat_id : Nat) (u : User)
    (hreg : private_get_user users chat_id ud = some (u, ud1)) :
    vote_for_joke cmd users jokes ud chat_id =
      match ud1.last_joke with
      | none => (users, jokes, ud1, [.response "joke_no_current"])
      | some joke =>
        match u.vote_for_joke joke (votePolarity cmd) with
        | .ok (user', joke') =>
            (commitUser users user', commitJoke jokes joke',
             { ud1 with current_user := some user', last_joke := none },
             [.removeKeyboard "after_vote"])
        | .error _ =>
            (users, jokes, { ud1 with last_joke := none },
             [.removeKeyboard "after_vote"]) := by
  unfold vote_for_joke
  rw [hreg]

/-! ### Claim C4: conversation flow after success vs `/cancel` -/

/-- Claim C4 (code bug): on a successful registration the handler falls through
`finally: return`, returning `None` to the dispatcher — not
`ConversationHandler.END` as `/cancel` does — so the conversation stays in
`AWAITING_USERNAME` instead of returning to `IDLE`; likewise a successful joke
submission leaves `AWAITING_JOKE_BODY`.  Last conjunct: the very next message
in the still-open registration flow reaches `private_add_user` with an
already-registered identity and trips its `assert user is None`; the same
`finally: return` then discards that `AssertionError`, so the message is
swallowed silently — no registration, no reply, signal `None`, state still
stuck. -/
theorem success_does_not_end_conversation :
    new_user_received_username [] ⟨none, none, none⟩ 1 "alice" =
      ([aliceW], ⟨none, none, some aliceW⟩, none,
       [.response "user_register_success", .menuKeyboard]) ∧
    updateConvState .awaitingUsername none = .awaitingUsername ∧
    (new_joke_received [aliceW] [] udAlice 1 "aaaaaaaaaa").2.2.1 = none ∧
    updateConvState .awaitingJokeBody none = .awaitingJokeBody ∧
    cancel.1 = some .endConv ∧
    updateConvState .awaitingUsername cancel.1 = .idle ∧
    updateConvState .awaitingJokeBody cancel.1 = .idle ∧
    new_user_received_username [aliceW] ⟨none, none, some aliceW⟩ 1 "bravo" =
      ([aliceW], ⟨none, none, some aliceW⟩, none, []) :=
  ⟨rfl, rfl, rfl, rfl, rfl, rfl, rfl, rfl⟩

/-! ### Claim C8: validation failures leave the conversation state unchanged -/

/-- The retry contract: every validation failure in the registration and
joke-submission flows replies with the specific message for that failure,
leaves the tables and the session unchanged, and returns `None` to the
dispatcher, so `updateConvState` keeps the current flow state (no fallback to
`IDLE`) and the user can retry immediately. -/
def RetryOnFailureSpec (users : List User) (jokes : List Joke) (ud : UserData)
    (chat_id : Nat) (s b : String) : Prop :=
  (usernameAllowed s = false →
     new_user_received_username users ud chat_id s =
       (users, ud, none, [.response "username_invalid_characters"])) ∧
  (usernameAllowed s = true → s.length < 5 →
     new_user_received_username users ud chat_id s =
       (users, ud, none, [.response "username_too_short"])) ∧
  (usernameAllowed s = true → 5 ≤ s.length → 20 < s.length →
     new_user_received_username users ud chat_id s =
       (users, ud, none, [.response "username_too_long"])) ∧
  (∀ u ud1, private_get_user users chat_id ud = some (u, ud1) →
    (b.length < 10 →
       new_joke_received users jokes ud chat_id b =
         (jokes, ud1, none, [.response "joke_too_short"])) ∧
    (1000 < b.length →
       new_joke_received users jokes ud chat_id b =
         (jokes, ud1, none, [.response "joke_too_long"]))) ∧
  (∀ st : ConvState, updateConvState st none = st)

/-- Claim C8: in both flows every validation failure (invalid username
characters, username or joke body too short or too long) replies with that
failure's specific message and leaves the conversation state unchanged (the
handler returns `None`, which `updateConvState` maps to the same state). -/
theorem validation_failure_retry (users : List User) (jokes : List Joke)
    (ud : UserData) (chat_id : Nat) (s b : String) :
    RetryOnFailureSpec users jokes ud chat_id s b := by
  refine ⟨?_, ?_, ?_, ?_, fun st => rfl⟩
  · intro hc
    unfold new_user_received_username
    rw [add_user_invalid_chars users chat_id s hc]
  · intro hc h5
    unfold new_user_received_username
    rw [add_user_too_short users chat_id s hc h5]
  · intro hc h5 h20
    unfold new_user_received_username
    rw [add_user_too_long users chat_id s hc h5 h20]
  · intro u ud1 hreg
    rw [new_joke_received_reduce users jokes ud ud1 chat_id u b hreg]
    constructor
    · intro h
      rw [add_joke_too_short jokes b u h]
    · intro h
      rw [add_joke_too_long jokes b u h]

/-- Witness for C8: the username "ab!" (bad charset) and a 3-character joke
body, in a session where `aliceW` is the registered current user. -/
theorem validation_failure_retry_witness :
    usernameAllowed "ab!" = false ∧
    new_user_received_username [aliceW] udAlice 1 "ab!" =
      ([aliceW], udAlice, none, [.response "username_invalid_characters"]) ∧
    "abc".length < 10 ∧
    new_joke_received [aliceW] [] udAlice 1 "abc" =
      ([], udAlice, none, [.response "joke_too_short"]) :=
  ⟨by decide,
   (validation_failure_retry [aliceW] [] udAlice 1 "ab!" "abc").1 (by decide),
   by decide,
   ((validation_failure_retry [aliceW] [] udAlice 1 "ab!" "abc").2.2.2.1
     aliceW udAlice rfl).1 (by decide)⟩

/-! ### Claim C9: `/random_joke` on an empty repository -/

/-- Claim C9: with an empty joke repository, `/random_joke` from a registered
user replies with the `no_new_jokes` message — the `ValueError` raised by
`randint(0, -1)` is caught, so no error escapes — and neither the repository
(which this handler never writes) nor the session's `last_joke` slot changes;
only the `current_user` cache may be filled in by the registration lookup. -/
theorem random_joke_empty_repo (users : List User) (ud ud1 : UserData)
    (chat_id : Nat) (u : User)
    (hreg : private_get_user users chat_id ud = some (u, ud1)) :
    display_random_joke [] users ud chat_id = (ud1, [.response "no_new_jokes"]) ∧
    ud1.last_joke = ud.last_joke := by
  constructor
  · rw [display_random_joke_reduce [] users ud ud1 chat_id u hreg]
    rfl
  · exact (get_user_some hreg).1

/-- Witness for C9: empty repository, registered user `aliceW`. -/
theorem random_joke_empty_repo_witness :
    private_get_user [aliceW] 1 udAlice = some (aliceW, udAlice) ∧
    (display_random_joke [] [aliceW] udAlice 1 =
       (udAlice, [.response "no_new_jokes"]) ∧
     udAlice.last_joke = udAlice.last_joke) :=
  ⟨rfl, random_joke_empty_repo [aliceW] udAlice udAlice 1 aliceW rfl⟩

/-! ### Claim C5: `/random_joke` never shows an own or already-voted joke -/

/-- Claim C5: whatever joke table a prior sequence of adds and votes produced
and whatever order the shuffle yields, if `/random_joke` displays joke `j` to
registered user `u`, then `j` is not authored by `u`, `u` has no vote recorded
on `j`, and `j` becomes the session's `last_joke`. -/
theorem random_joke_shows_only_unseen (shuffled : List Joke) (users : List User)
    (ud ud1 : UserData) (chat_id : Nat) (u : User) (j : Joke)
    (hreg : private_get_user users chat_id ud = some (u, ud1))
    (hshown : Reply.jokeBody j ∈ (display_random_joke shuffled users ud chat_id).2) :
    j.author ≠ u.id ∧ (∀ p ∈ u.jokesVotedFor, p.1 ≠ j.id) ∧
    (display_random_joke shuffled users ud chat_id).1.last_joke = some j := by
  rw [display_random_joke_reduce shuffled users ud ud1 chat_id u hreg] at hshown ⊢
  by_cases hemp : shuffled.isEmpty
  · rw [if_pos hemp] at hshown
    simp at hshown
  · rw [if_neg hemp] at hshown ⊢
    cases hfind : shuffled.find? (fun j => unseenBy u j) with
    | none =>
      rw [hfind] at hshown
      simp at hshown
    | some r =>
      rw [hfind] at hshown
      simp only [List.mem_cons, List.not_mem_nil, or_false,
        Reply.jokeBody.injEq, List.mem_singleton] at hshown
      have hj : j = r := by
        rcases hshown with h | h
        · exact h
        · cases h
      subst hj
      have hp : unseenBy u j = true := List.find?_some hfind
      unfold unseenBy votedAlready userIsAuthor at hp
      rw [Bool.and_eq_true, Bool.not_eq_true', Bool.not_eq_true'] at hp
      obtain ⟨hv, ha⟩ := hp
      refine ⟨by simpa using ha, ?_, rfl⟩
      intro p hpmem
      have := List.any_eq_false.mp hv p hpmem
      simpa using this

/-- Witness for C5: `aliceW` is shown `jokeW` (authored by `bobW`). -/
theorem random_joke_shows_only_unseen_witness :
    private_get_user [aliceW] 1 udAlice = some (aliceW, udAlice) ∧
    Reply.jokeBody jokeW ∈ (display_random_joke [jokeW] [aliceW] udAlice 1).2 ∧
    (jokeW.author ≠ aliceW.id ∧ (∀ p ∈ aliceW.jokesVotedFor, p.1 ≠ jokeW.id) ∧
     (display_random_joke [jokeW] [aliceW] udAlice 1).1.last_joke = some jokeW) :=
  ⟨rfl, by decide,
   random_joke_shows_only_unseen [jokeW] [aliceW] udAlice udAlice 1 aliceW jokeW
     rfl (by decide)⟩

/-! ### Claim C7: `/best_joke` shows the lowest-voted unseen joke -/

/-- Claim C7: `/best_joke` displays the first joke, in the joke table sorted
ascending by `vote_count`, that the registered user neither authored nor voted
on — hence the displayed joke is unseen, belongs to the table, and has minimal
`vote_count` among the user's unseen jokes; and whenever some unseen joke
exists, one is displayed. -/
theorem best_joke_shows_lowest_unseen (jokes : List Joke) (users : List User)
    (ud ud1 : UserData) (chat_id : Nat) (u : User)
    (hreg : private_get_user users chat_id ud = some (u, ud1)) :
    (∀ j, (display_best_joke jokes users ud chat_id).2 = [.jokeBody j] →
       j ∈ jokes ∧ unseenBy u j = true ∧
       ∀ x ∈ jokes, unseenBy u x = true → j.vote_count ≤ x.vote_count) ∧
    ((∃ x ∈ jokes, unseenBy u x = true) →
       ∃ j, (display_best_joke jokes users ud chat_id).2 = [.jokeBody j]) := by
  rw [display_best_joke_reduce jokes users ud ud1 chat_id u hreg]
  cases hfind : (jokesByVoteCount jokes).find? (fun j => unseenBy u j) with
  | some r =>
    constructor
    · intro j hj
      simp only [Reply.jokeBody.injEq, List.cons.injEq, and_true] at hj
      subst hj
      refine ⟨(jokesByVoteCount_perm jokes).mem_iff.mp
          (List.mem_of_find?_eq_some hfind), List.find?_some hfind, ?_⟩
      intro x hx hux
      exact find?_min_vote_count (sorted_jokesByVoteCount jokes) hfind x
        ((jokesByVoteCount_perm jokes).mem_iff.mpr hx) hux
    · intro _
      exact ⟨r, rfl⟩
  | none =>
    constructor
    · intro j hj
      simp at hj
    · rintro ⟨x, hx, hux⟩
      rw [List.find?_eq_none] at hfind
      exact absurd hux
        (by simpa using hfind x ((jokesByVoteCount_perm jokes).mem_iff.mpr hx))

/-- Witness for C7: table with `jokeW` (unseen by `aliceW`). -/
theorem best_joke_shows_lowest_unseen_witness :
    private_get_user [aliceW] 1 udAlice = some (aliceW, udAlice) ∧
    ((∀ j, (display_best_joke [jokeW] [aliceW] udAlice 1).2 = [.jokeBody j] →
        j ∈ [jokeW] ∧ unseenBy aliceW j = true ∧
        ∀ x ∈ [jokeW], unseenBy aliceW x = true →
          j.vote_count ≤ x.vote_count) ∧
     ((∃ x ∈ [jokeW], unseenBy aliceW x = true) →
        ∃ j, (display_best_joke [jokeW] [aliceW] udAlice 1).2 = [.jokeBody j])) :=
  ⟨rfl, best_joke_shows_lowest_unseen [jokeW] [aliceW] udAlice udAlice 1 aliceW rfl⟩

/-! ### Claim C10: `/best_joke` is silent when no unseen joke exists -/

/-- Claim C10: when the repository is non-empty but every joke is authored by
or already voted on by the registered user, `/best_joke` sends no reply at all
(empty reply list), while `/random_joke` in the same situation — for any
shuffle order of the same table — replies with the `no_new_jokes` message. -/
theorem best_joke_exhausted_silent (jokes : List Joke) (users : List User)
    (ud ud1 : UserData) (chat_id : Nat) (u : User)
    (hreg : private_get_user users chat_id ud = some (u, ud1))
    (hne : jokes ≠ []) (hall : ∀ j ∈ jokes, unseenBy u j = false) :
    display_best_joke jokes users ud chat_id = (ud1, []) ∧
    ∀ shuffled : List Joke, shuffled.Perm jokes →
      display_random_joke shuffled users ud chat_id =
        (ud1, [.response "no_new_jokes"]) := by
  constructor
  · rw [display_best_joke_reduce jokes users ud ud1 chat_id u hreg]
    have hfind : (jokesByVoteCount jokes).find? (fun j => unseenBy u j) = none := by
      rw [List.find?_eq_none]
      intro x hx
      simp [hall x ((jokesByVoteCount_perm jokes).mem_iff.mp hx)]
    rw [hfind]
  · intro shuffled hperm
    rw [display_random_joke_reduce shuffled users ud ud1 chat_id u hreg]
    have hnn : shuffled ≠ [] := by
      intro h
      rw [h] at hperm
      exact hne hperm.symm.eq_nil
    have hemp : shuffled.isEmpty = false := by
      cases shuffled with
      | nil => exact absurd rfl hnn
      | cons a t => rfl
    rw [hemp]
    have hfind : shuffled.find? (fun j => unseenBy u j) = none := by
      rw [List.find?_eq_none]
      intro x hx
      simp [hall x (hperm.mem_iff.mp hx)]
    rw [hfind]
    rfl

/-- Witness for C10: `bobW` exhausted the one-joke table (own joke). -/
theorem best_joke_exhausted_silent_witness :
    private_get_user [bobW] 2 ⟨some bobW, none, none⟩ =
      some (bobW, ⟨some bobW, none, none⟩) ∧
    ([jokeW] ≠ ([] : List Joke)) ∧
    (∀ j ∈ [jokeW], unseenBy bobW j = false) ∧
    (display_best_joke [jokeW] [bobW] ⟨some bobW, none, none⟩ 2 =
       (⟨some bobW, none, none⟩, []) ∧
     ∀ shuffled : List Joke, shuffled.Perm [jokeW] →
       display_random_joke shuffled [bobW] ⟨some bobW, none, none⟩ 2 =
         (⟨some bobW, none, none⟩, [.response "no_new_jokes"])) :=
  ⟨rfl, by decide, by decide,
   best_joke_exhausted_silent [jokeW] [bobW] ⟨some bobW, none, none⟩
     ⟨some bobW, none, none⟩ 2 bobW rfl (by decide) (by decide)⟩

/-! ### Claim C1: the `/hah`-`/nah` vote handler -/

/-- The vote handling contract for a registered user: with no pending
`last_joke` the handler replies `joke_no_current` ("nothing to vote on") and
changes nothing; with a pending joke it applies the vote (positive for `/hah`,
negative for `/nah`) to the (user, joke) pair when valid, swallows
`InvalidVote` (duplicate or self vote) leaving the tables untouched, clears
the `last_joke` slot in both cases, acknowledges with the generic `after_vote`
message only, and any second vote command immediately afterwards is answered
with `joke_no_current`. -/
def VoteSpec (cmd : VoteCmd) (users : List User) (jokes : List Joke)
    (ud : UserData) (chat_id : Nat) (u : User) (ud1 : UserData) : Prop :=
  (votePolarity VoteCmd.hah = true ∧ votePolarity VoteCmd.nah = false) ∧
  (ud1.last_joke = none →
     vote_for_joke cmd users jokes ud chat_id =
       (users, jokes, ud1, [.response "joke_no_current"])) ∧
  (∀ j, ud1.last_joke = some j →
    (userIsAuthor u j = false → votedAlready u j = false →
       vote_for_joke cmd users jokes ud chat_id =
         (commitUser users
            { u with jokesVotedFor := u.jokesVotedFor ++ [(j.id, votePolarity cmd)] },
          commitJoke jokes
            { j with vote_count := j.vote_count + (if votePolarity cmd then 1 else -1) },
          { ud1 with
              current_user := some
                { u with jokesVotedFor := u.jokesVotedFor ++ [(j.id, votePolarity cmd)] },
              last_joke := none },
          [.removeKeyboard "after_vote"])) ∧
    (userIsAuthor u j = true ∨ votedAlready u j = true →
       vote_for_joke cmd users jokes ud chat_id =
         (users, jokes, { ud1 with last_joke := none },
          [.removeKeyboard "after_vote"])) ∧
    (vote_for_joke cmd users jokes ud chat_id).2.2.1.last_joke = none ∧
    (vote_for_joke cmd users jokes ud chat_id).2.2.2 =
      [.removeKeyboard "after_vote"] ∧
    (∀ cmd2 : VoteCmd,
      vote_for_joke cmd2 (vote_for_joke cmd users jokes ud chat_id).1
        (vote_for_joke cmd users jokes ud chat_id).2.1
        (vote_for_joke cmd users jokes ud chat_id).2.2.1 chat_id =
      ((vote_for_joke cmd users jokes ud chat_id).1,
       (vote_for_joke cmd users jokes ud chat_id).2.1,
       (vote_for_joke cmd users jokes ud chat_id).2.2.1,
       [.response "joke_no_current"])))

/-- Claim C1: the vote handler for a registered user — "nothing to vote on"
with an unchanged state when no joke is pending; otherwise the vote is applied
per polarity, `InvalidVote` is swallowed, `last_joke` is cleared regardless of
outcome, the generic acknowledgement is the only reply, and a second `/hah`
with no intervening display yields the "nothing to vote on" message. -/
theorem vote_result_step (cmd : VoteCmd) (users : List User) (jokes : List Joke)
    (ud ud1 : UserData) (chat_id : Nat) (u : User) (j : Joke)
    (hreg : private_get_user users chat_id ud = some (u, ud1))
    (hsome : ud1.last_joke = some j) :
    vote_for_joke cmd users jokes ud chat_id =
      match u.vote_for_joke j (votePolarity cmd) with
      | .ok (user', joke') =>
          (commitUser users user', commitJoke jokes joke',
           { ud1 with current_user := some user', last_joke := none },
           [.removeKeyboard "after_vote"])
      | .error _ =>
          (users, jokes, { ud1 with last_joke := none },
           [.removeKeyboard "after_vote"]) := by
  rw [vote_for_joke_reduce cmd users jokes ud ud1 chat_id u hreg, hsome]

theorem vote_result_ok (cmd : VoteCmd) (users : List User) (jokes : List Joke)
    (ud ud1 : UserData) (chat_id : Nat) (u u' : User) (j j' : Joke)
    (hreg : private_get_user users chat_id ud = some (u, ud1))
    (hsome : ud1.last_joke = some j)
    (hok : u.vote_for_joke j (votePolarity cmd) = .ok (u', j')) :
    vote_for_joke cmd users jokes ud chat_id =
      (commitUser users u', commitJoke jokes j',
       { ud1 with current_user := some u', last_joke := none },
       [.removeKeyboard "after_vote"]) := by
  rw [vote_result_step cmd users jokes ud ud1 chat_id u j hreg hsome, hok]

theorem vote_result_invalid (cmd : VoteCmd) (users : List User)
    (jokes : List Joke) (ud ud1 : UserData) (chat_id : Nat) (u : User)
    (j : Joke) (e : Unit)
    (hreg : private_get_user users chat_id ud = some (u, ud1))
    (hsome : ud1.last_joke = some j)
    (herr : u.vote_for_joke j (votePolarity cmd) = .error e) :
    vote_for_joke cmd users jokes ud chat_id =
      (users, jokes, { ud1 with last_joke := none },
       [.removeKeyboard "after_vote"]) := by
  rw [vote_result_step cmd users jokes ud ud1 chat_id u j hreg hsome, herr]

/-- Claim C1: the vote handler for a registered user — "nothing to vote on"
with an unchanged state when no joke is pending; otherwise the vote is applied
per polarity, `InvalidVote` is swallowed, `last_joke` is cleared regardless of
outcome, the generic acknowledgement is the only reply, and a second `/hah`
with no intervening display yields the "nothing to vote on" message. -/
theorem vote_for_joke_contract (cmd : VoteCmd) (users : List User)
    (jokes : List Joke) (ud : UserData) (chat_id : Nat) (u : User)
    (ud1 : UserData)
    (hreg : private_get_user users chat_id ud = some (u, ud1)) :
    VoteSpec cmd users jokes ud chat_id u ud1 := by
  have hcache : ud1.current_user = some u := (get_user_some hreg).2.2
  refine ⟨⟨rfl, rfl⟩, ?_, ?_⟩
  · intro hnone
    rw [vote_for_joke_reduce cmd users jokes ud ud1 chat_id u hreg, hnone]
  · intro j hsome
    cases hv : u.vote_for_joke j (votePolarity cmd) with
    | ok val =>
      obtain ⟨u', j'⟩ := val
      have hres := vote_result_ok cmd users jokes ud ud1 chat_id u u' j j'
        hreg hsome hv
      have hv' := hv
      unfold User.vote_for_joke at hv'
      by_cases hc : (userIsAuthor u j || votedAlready u j) = true
      · rw [if_pos hc] at hv'
        cases hv'
      · rw [if_neg hc] at hv'
        simp only [Except.ok.injEq, Prod.mk.injEq] at hv'
        obtain ⟨hu, hj⟩ := hv'
        rw [Bool.or_eq_true] at hc
        push_neg at hc
        obtain ⟨ha, hvv⟩ := hc
        rw [hres]
        refine ⟨?_, ?_, rfl, rfl, ?_⟩
        · intro _ _
          rw [← hu, ← hj]
        · intro h
          rcases h with h | h
          · exact absurd h ha
          · exact absurd h hvv
        · intro cmd2
          have hreg2 : private_get_user (commitUser users u') chat_id
              { ud1 with current_user := some u', last_joke := none } =
              some (u', { ud1 with current_user := some u', last_joke := none }) :=
            get_user_cached rfl
          dsimp only
          rw [vote_for_joke_reduce cmd2 _ _ _ _ chat_id _ hreg2]
    | error e =>
      have hres := vote_result_invalid cmd users jokes ud ud1 chat_id u j e
        hreg hsome hv
      have hv' := hv
      unfold User.vote_for_joke at hv'
      by_cases hc : (userIsAuthor u j || votedAlready u j) = true
      · rw [Bool.or_eq_true] at hc
        rw [hres]
        refine ⟨?_, fun _ => rfl, rfl, rfl, ?_⟩
        · intro ha hvv
          rcases hc with h | h
          · rw [ha] at h
            cases h
          · rw [hvv] at h
            cases h
        · intro cmd2
          have hreg2 : private_get_user users chat_id
              { ud1 with last_joke := none } =
              some (u, { ud1 with last_joke := none }) := get_user_cached hcache
          dsimp only
          rw [vote_for_joke_reduce cmd2 _ _ _ _ chat_id _ hreg2]
      · rw [if_neg hc] at hv'
        cases hv'

/-- Witness for C1: `aliceW` has just been shown `jokeW` and votes `/hah`. -/
theorem vote_for_joke_contract_witness :
    private_get_user [aliceW] 1 ⟨some aliceW, some jokeW, none⟩ =
      some (aliceW, ⟨some aliceW, some jokeW, none⟩) ∧
    VoteSpec .hah [aliceW] [jokeW] ⟨some aliceW, some jokeW, none⟩ 1 aliceW
      ⟨some aliceW, some jokeW, none⟩ :=
  ⟨rfl, vote_for_joke_contract .hah [aliceW] [jokeW]
    ⟨some aliceW, some jokeW, none⟩ 1 aliceW ⟨some aliceW, some jokeW, none⟩ rfl⟩

/-! ### Claim C6: `/top10` and `/profile` use ascending score order -/

/-- The leaderboard contract: the user table ordered by `order_by(User.score)`
is an ascending-by-score permutation of the users; `/top10` lists its first 10
entries with 1-based ranks (so the listed users score no higher than anyone
omitted — the flagged "lowest-scoring top 10" behavior); `/profile` reports
the user's 1-based position in that same ascending order (everyone placed
before them scores no higher). -/
def LeaderboardSpec (users : List User) (jokes : List Joke) (ud : UserData)
    (chat_id : Nat) (u : User) (ud1 : UserData) : Prop :=
  List.Sorted (fun a b : User => a.score ≤ b.score) (usersByScore users) ∧
  (usersByScore users).Perm users ∧
  top10 users ud chat_id =
    (ud1, [.top10List (((usersByScore users).take 10).enum.map
       (fun p => (p.1 + 1, p.2.username, p.2.score)))]) ∧
  (∀ a ∈ (usersByScore users).take 10, ∀ b ∈ users,
     b ∉ (usersByScore users).take 10 → a.score ≤ b.score) ∧
  (u ∈ users →
    ∃ pre post, usersByScore users = pre ++ u :: post ∧
      profile users jokes ud chat_id =
        (ud1, [.profileInfo u.username (pre.length + 1) u.score
                 (u.get_jokes_submitted jokes).length (u.get_average_score jokes)]) ∧
      ∀ v ∈ pre, v.score ≤ u.score)

/-- Claim C6: `/top10` lists the first 10 users of the user list sorted
ascending by score (the lowest-scoring users, per the flagged literal
behavior), and the rank shown by `/profile` is the user's 1-based position in
that same ascending-by-score order. -/
theorem top10_profile_rank (users : List User) (jokes : List Joke)
    (ud ud1 : UserData) (chat_id : Nat) (u : User)
    (hreg : private_get_user users chat_id ud = some (u, ud1)) :
    LeaderboardSpec users jokes ud chat_id u ud1 := by
  refine ⟨sorted_usersByScore users, usersByScore_perm users, ?_, ?_, ?_⟩
  · unfold top10
    rw [hreg]
  · exact fun a ha b hb hbn => take10_score_le users a b ha hb hbn
  · intro hmem
    have hmem' : u ∈ usersByScore users :=
      (usersByScore_perm users).mem_iff.mpr hmem
    obtain ⟨pre, post, hsplit, hlen⟩ := indexOf_split (usersByScore users) u hmem'
    have hpr : profile users jokes ud chat_id =
        (ud1, [.profileInfo u.username ((usersByScore users).indexOf u + 1)
                 u.score (u.get_jokes_submitted jokes).length
                 (u.get_average_score jokes)]) := by
      unfold profile
      rw [hreg]
    refine ⟨pre, post, hsplit, ?_, ?_⟩
    · rw [hpr, ← hlen]
    · have hs := sorted_usersByScore users
      rw [hsplit] at hs
      have hparts := List.pairwise_append.mp hs
      exact fun v hv => hparts.2.2 v hv u (List.mem_cons_self u post)

/-- Witness for C6: two registered users with distinct scores. -/
theorem top10_profile_rank_witness :
    private_get_user [aliceW, bobW] 1 udAlice = some (aliceW, udAlice) ∧
    LeaderboardSpec [aliceW, bobW] [jokeW] udAlice 1 aliceW udAlice :=
  ⟨rfl, top10_profile_rank [aliceW, bobW] [jokeW] udAlice udAlice 1 aliceW rfl⟩

end HahOrNah
